import Mathlib

/-!
Verification of the task-booking core of the `ai_reception` application
(`src/ai_reception/db.py` together with `src/ai_reception/timeutil.py`).

The embedding models the `tasks` table of the SQLite database as a list of
task records, and the task-lifecycle methods of class `DB`
(`create_or_update_task`, `_overlap_conflict`, `assign_hold`, `confirm_task`,
`mark_done`, `cancel_task`, `cleanup_expired_holds`) as pure functions on
that state.  Timestamps are ISO strings in the source; the source only ever
inspects them through `datetime.fromisoformat` (via `timeutil.parse_iso`) and
only ever produces them through `isoformat(timespec="seconds")`, so a string
is modelled as either a parsable timestamp carrying its value in seconds
(`TStr.valid`) or an unparsable string (`TStr.invalid`, tagged so that
distinct unparsable strings remain distinct).  Durations are minutes, hence
the factor 60 when a duration is added to a timestamp
(`timedelta(minutes=d)`).  The wall clock `now_iso()` always produces a
parsable string; each operation takes its value `now` as a parameter.
-/

namespace AIReception

/-- Task status enumeration, from the CHECK constraint on `tasks.status`. -/
inductive Status
  | TODO
  | HOLD
  | CONFIRMED
  | IN_PROGRESS
  | DONE
  | CANCELLED
  | EXPIRED
deriving DecidableEq

/-- A timestamp string: either parsable (carrying its value, in seconds) or
unparsable (tagged).  `datetime.fromisoformat` is injective on the canonical
`isoformat(timespec="seconds")` strings the program stores and passes. -/
inductive TStr
  | valid (t : Int)
  | invalid (tag : Nat)
deriving DecidableEq

/-- Model of `timeutil.parse_iso` (and of a bare `datetime.fromisoformat`
call guarded by try/except): `None` on an unparsable string. -/
def parse_iso : TStr → Option Int
  | .valid t => some t
  | .invalid _ => none

@[simp] lemma parse_iso_valid (t : Int) : parse_iso (TStr.valid t) = some t := rfl

@[simp] lemma parse_iso_invalid (n : Nat) : parse_iso (TStr.invalid n) = none := rfl

/-- One row of the `tasks` table. -/
structure Task where
  id : Nat
  conv_id : Option Nat
  title : String
  address : String
  contact_phone : String
  notes : String
  start_time : Option TStr
  duration_min : Int
  staff_id : Option Nat
  status : Status
  hold_expires_at : Option TStr
  created_time : Int
  updated_time : Int
deriving DecidableEq

/-- The `tasks` table plus the AUTOINCREMENT counter for fresh row ids. -/
structure DBState where
  tasks : List Task
  nextId : Nat
deriving DecidableEq

/-- Output of `extract_customer_task_fields`: the dict handed to
`create_or_update_task`; `extracted.get(k, "")` is `Option.getD _ ""`. -/
structure Extracted where
  title : Option String
  address : Option String
  contact_phone : Option String
  notes : Option String
deriving DecidableEq

/-- The status set `('TODO','HOLD','CONFIRMED','IN_PROGRESS')` used by the
active-task-per-conversation queries. -/
def activeTaskStatus (st : Status) : Bool :=
  st == .TODO || st == .HOLD || st == .CONFIRMED || st == .IN_PROGRESS

/-- The status set `('HOLD','CONFIRMED','IN_PROGRESS')` used by the
overlap query and the partial unique index. -/
def activeBookingStatus (st : Status) : Bool :=
  st == .HOLD || st == .CONFIRMED || st == .IN_PROGRESS

/-- Python `int(r["duration_min"] or 60)`: a stored duration of 0 is falsy
and is replaced by 60; every other integer is kept (negative ones included). -/
def effDur (d : Int) : Int :=
  if d == 0 then 60 else d

/-- Body of the loop in `DB._overlap_conflict`: a stored row conflicts with
the candidate `[s1, e1)` when its start parses to `s` and
`max(s, s1) < min(s + duration, e1)` with the falsy-default duration. -/
def rowConflicts (s1 e1 : Int) (t : Task) : Bool :=
  match t.start_time with
  | none => false
  | some ts =>
    match parse_iso ts with
    | none => false
    | some s => decide (max s s1 < min (s + 60 * effDur t.duration_min) e1)

/-- Model of `DB._overlap_conflict(staff_id, start_time, end_time)`: scans
active rows of the staff with a non-null start; returns false outright when
the candidate start or end does not parse. -/
def overlap_conflict (s : DBState) (staff : Nat) (st en : TStr) : Bool :=
  match parse_iso st, parse_iso en with
  | some s1, some e1 =>
    s.tasks.any fun t =>
      t.staff_id == some staff && activeBookingStatus t.status && rowConflicts s1 e1 t
  | _, _ => false

/-- The messages `assign_hold` can return, in source order: unparsable start
time, overlap conflict, success, and the IntegrityError fallback of the
unique index `ux_tasks_staff_start_active`. -/
inductive HoldMsg
  | badTime
  | conflictOverlap
  | held
  | conflictStart
deriving DecidableEq

/-- The row update performed by `assign_hold` on success. -/
def holdUpdate (staff : Nat) (st : TStr) (dur : Int) (expires : TStr) (now : Int)
    (t : Task) : Task :=
  { t with staff_id := some staff, start_time := some st, duration_min := dur,
           status := .HOLD, hold_expires_at := some expires, updated_time := now }

/-- The partial unique index `ux_tasks_staff_start_active` fires on the
UPDATE of `assign_hold` exactly when a row with the target id exists (so a
row is actually rewritten) and a different row already holds the same
(staff_id, start_time) pair among active statuses. -/
def dupStart (s : DBState) (task staff : Nat) (st : TStr) : Bool :=
  (s.tasks.any fun t => t.id == task) &&
  (s.tasks.any fun t =>
    t.id != task && activeBookingStatus t.status &&
      t.staff_id == some staff && t.start_time == some st)

/-- Model of `DB.assign_hold`: parse the start time (error message on
failure), compute the end time, run the overlap check, then perform the
UPDATE, which either trips the unique index (statement rolled back, conflict
message) or succeeds.  Returns (new state, ok flag, message). -/
def assign_hold (s : DBState) (task staff : Nat) (start_time : TStr)
    (duration_min hold_minutes : Int) (now : Int) : DBState × Bool × HoldMsg :=
  match parse_iso start_time with
  | none => (s, false, .badTime)
  | some sdt =>
    let en : TStr := .valid (sdt + 60 * duration_min)
    if overlap_conflict s staff start_time en then
      (s, false, .conflictOverlap)
    else
      let expires : TStr := .valid (now + 60 * hold_minutes)
      if dupStart s task staff start_time then
        (s, false, .conflictStart)
      else
        ({ s with tasks := s.tasks.map fun t =>
            if t.id == task then holdUpdate staff start_time duration_min expires now t
            else t },
         true, .held)

/-- Model of `DB.confirm_task`: unconditionally sets status CONFIRMED,
clears `hold_expires_at`, bumps `updated_time`. -/
def confirm_task (s : DBState) (task : Nat) (now : Int) : DBState :=
  { s with tasks := s.tasks.map fun t =>
      if t.id == task then
        { t with status := .CONFIRMED, hold_expires_at := none, updated_time := now }
      else t }

/-- Model of `DB.mark_done`: unconditionally sets status DONE and bumps
`updated_time` (it does not touch `hold_expires_at`). -/
def mark_done (s : DBState) (task : Nat) (now : Int) : DBState :=
  { s with tasks := s.tasks.map fun t =>
      if t.id == task then { t with status := .DONE, updated_time := now } else t }

/-- Model of `DB.cancel_task`: unconditionally sets status CANCELLED and
bumps `updated_time` (it does not touch `hold_expires_at`). -/
def cancel_task (s : DBState) (task : Nat) (now : Int) : DBState :=
  { s with tasks := s.tasks.map fun t =>
      if t.id == task then { t with status := .CANCELLED, updated_time := now } else t }

/-- The due-hold test of `cleanup_expired_holds`: status HOLD, a non-null
`hold_expires_at` that parses, and its value at or before now. -/
def dueHold (now : Int) (t : Task) : Bool :=
  t.status == .HOLD &&
    match t.hold_expires_at with
    | none => false
    | some ts =>
      match parse_iso ts with
      | none => false
      | some d => decide (d ≤ now)

/-- The row update `cleanup_expired_holds` applies to each due hold. -/
def expireTask (now : Int) (t : Task) : Task :=
  { t with status := .EXPIRED, staff_id := none, start_time := none,
           hold_expires_at := none, updated_time := now }

/-- Model of `DB.cleanup_expired_holds`: collect the ids of due holds;
return 0 touching nothing when there are none, otherwise expire exactly the
rows with those ids and return how many there were. -/
def cleanup_expired_holds (s : DBState) (now : Int) : DBState × Nat :=
  let expired := (s.tasks.filter (dueHold now)).map (·.id)
  if expired.isEmpty then (s, 0)
  else
    ({ s with tasks := s.tasks.map fun t =>
        if expired.contains t.id then expireTask now t else t },
     expired.length)

/-- Row filter of the active-task query
`conv_id=? AND status IN ('TODO','HOLD','CONFIRMED','IN_PROGRESS')`. -/
def convActive (conv : Nat) (t : Task) : Bool :=
  t.conv_id == some conv && activeTaskStatus t.status

/-- The `SELECT id ... ORDER BY id DESC LIMIT 1` of `create_or_update_task`:
the greatest id among the conversation's active rows. -/
def maxActiveId (s : DBState) (conv : Nat) : Option Nat :=
  ((s.tasks.filter (convActive conv)).map (·.id)).max?

/-- The field update of `create_or_update_task` on an existing active task:
only title, address, contact_phone, notes and updated_time change. -/
def updExtract (ex : Extracted) (now : Int) (t : Task) : Task :=
  { t with title := ex.title.getD "", address := ex.address.getD "",
           contact_phone := ex.contact_phone.getD "", notes := ex.notes.getD "",
           updated_time := now }

/-- Model of `DB.create_or_update_task`: update the conversation's most
recent active task if one exists, else insert a fresh TODO row (booking
fields null, duration at its column default 60).  Returns (task id, state). -/
def create_or_update_task (s : DBState) (conv : Nat) (ex : Extracted) (now : Int) :
    Nat × DBState :=
  match maxActiveId s conv with
  | some tid =>
    (tid, { s with tasks := s.tasks.map fun t =>
        if t.id == tid then updExtract ex now t else t })
  | none =>
    (s.nextId,
     { tasks := s.tasks ++
        [{ id := s.nextId, conv_id := some conv, title := ex.title.getD "",
           address := ex.address.getD "", contact_phone := ex.contact_phone.getD "",
           notes := ex.notes.getD "", start_time := none, duration_min := 60,
           staff_id := none, status := .TODO, hold_expires_at := none,
           created_time := now, updated_time := now }],
       nextId := s.nextId + 1 })

/-!  Specification-side vocabulary: booking intervals and the per-staff
non-overlap invariant, in the terms of the specification (half-open interval
`[start_time, start_time + duration)` of a task, overlap as
`max(s1,s2) < min(e1,e2)`). -/

/-- The booking interval of a task, when its start time is present and
parsable: `[start, start + 60 * duration_min)` in seconds. -/
def ivl (t : Task) : Option (Int × Int) :=
  match t.start_time with
  | none => none
  | some ts => (parse_iso ts).map fun v => (v, v + 60 * t.duration_min)

/-- The interval a row effectively occupies in the code's overlap check,
with the falsy-default duration (0 treated as 60). -/
def effIvl (t : Task) : Option (Int × Int) :=
  match t.start_time with
  | none => none
  | some ts => (parse_iso ts).map fun v => (v, v + 60 * effDur t.duration_min)

/-- Half-open interval overlap on optional intervals: `max s1 s2 < min e1 e2`,
false when either interval is absent. -/
def overlapB : Option (Int × Int) → Option (Int × Int) → Bool
  | some a, some b => decide (max a.1 b.1 < min a.2 b.2)
  | _, _ => false

/-- A task is an active booking of staff `sid`. -/
def activeForB (sid : Nat) (t : Task) : Bool :=
  activeBookingStatus t.status && t.staff_id == some sid

/-- Central invariant: the booking intervals of a staff's active tasks are
pairwise non-overlapping (distinct tasks being those with distinct ids,
`tasks.id` being the primary key). -/
def staffInv (s : DBState) (sid : Nat) : Prop :=
  ∀ t1 ∈ s.tasks, ∀ t2 ∈ s.tasks, t1.id ≠ t2.id →
    activeForB sid t1 = true → activeForB sid t2 = true →
      overlapB (ivl t1) (ivl t2) = false

instance staffInvDecidable (s : DBState) (sid : Nat) : Decidable (staffInv s sid) := by
  unfold staffInv
  infer_instance

/-- Hold-expiry invariant: `hold_expires_at` is non-null iff status = HOLD. -/
def holdInv (s : DBState) : Prop :=
  ∀ t ∈ s.tasks, ((t.hold_expires_at).isSome = true ↔ t.status = Status.HOLD)

instance holdInvDecidable (s : DBState) : Decidable (holdInv s) := by
  unfold holdInv
  infer_instance

/-- Conflict classification of an `assign_hold` message: both the overlap
message and the unique-index message report a conflict to the caller. -/
def conflictMsg : HoldMsg → Bool
  | .conflictOverlap => true
  | .conflictStart => true
  | _ => false

/-!  Characterizations of the overlap check and of the branches of
`assign_hold`. -/

lemma rowConflicts_eq_overlapB (s1 e1 : Int) (t : Task) :
    rowConflicts s1 e1 t = overlapB (effIvl t) (some (s1, e1)) := by
  unfold rowConflicts effIvl
  cases h1 : t.start_time with
  | none => rfl
  | some ts =>
    cases h2 : parse_iso ts with
    | none => simp [h2, overlapB]
    | some v => simp [h2, overlapB]

lemma overlap_conflict_spec (s : DBState) (staff : Nat) (st en : TStr) :
    overlap_conflict s staff st en = true ↔
      ∃ s1, parse_iso st = some s1 ∧ ∃ e1, parse_iso en = some e1 ∧
        ∃ t ∈ s.tasks, activeForB staff t = true ∧
          overlapB (effIvl t) (some (s1, e1)) = true := by
  cases hst : parse_iso st with
  | none => simp [overlap_conflict, hst]
  | some s1 =>
    cases hen : parse_iso en with
    | none => simp [overlap_conflict, hst, hen]
    | some e1 =>
      simp only [overlap_conflict, hst, hen, Option.some.injEq, List.any_eq_true,
        Bool.and_eq_true, beq_iff_eq, rowConflicts_eq_overlapB, activeForB,
        exists_eq_left']
      constructor
      · rintro ⟨t, ht, ⟨hstaff, hact⟩, hov⟩
        exact ⟨t, ht, ⟨hact, by simp [hstaff]⟩, hov⟩
      · rintro ⟨t, ht, ⟨hact, hstaff⟩, hov⟩
        refine ⟨t, ht, ⟨?_, hact⟩, hov⟩
        simpa using hstaff

lemma dupStart_spec (s : DBState) (task staff : Nat) (st : TStr) :
    dupStart s task staff st = true ↔
      (∃ u ∈ s.tasks, u.id = task) ∧
      ∃ t ∈ s.tasks, t.id ≠ task ∧ activeBookingStatus t.status = true ∧
        t.staff_id = some staff ∧ t.start_time = some st := by
  unfold dupStart
  simp [List.any_eq_true, Bool.and_eq_true, beq_iff_eq, bne_iff_ne, and_assoc]

lemma assign_hold_of_badTime (s : DBState) (task staff : Nat) (st : TStr)
    (dur hm now : Int) (hp : parse_iso st = none) :
    assign_hold s task staff st dur hm now = (s, false, .badTime) := by
  unfold assign_hold; rw [hp]

lemma assign_hold_of_conflict (s : DBState) (task staff : Nat) (st : TStr)
    (dur hm now : Int) (s1 : Int) (hp : parse_iso st = some s1)
    (hov : overlap_conflict s staff st (.valid (s1 + 60 * dur)) = true) :
    assign_hold s task staff st dur hm now = (s, false, .conflictOverlap) := by
  unfold assign_hold; rw [hp]; simp [hov]

lemma assign_hold_of_dup (s : DBState) (task staff : Nat) (st : TStr)
    (dur hm now : Int) (s1 : Int) (hp : parse_iso st = some s1)
    (hov : overlap_conflict s staff st (.valid (s1 + 60 * dur)) = false)
    (hd : dupStart s task staff st = true) :
    assign_hold s task staff st dur hm now = (s, false, .conflictStart) := by
  unfold assign_hold; rw [hp]; simp [hov, hd]

lemma assign_hold_of_ok (s : DBState) (task staff : Nat) (st : TStr)
    (dur hm now : Int) (s1 : Int) (hp : parse_iso st = some s1)
    (hov : overlap_conflict s staff st (.valid (s1 + 60 * dur)) = false)
    (hd : dupStart s task staff st = false) :
    assign_hold s task staff st dur hm now =
      ({ s with tasks := s.tasks.map fun t =>
          if t.id == task then
            holdUpdate staff st dur (.valid (now + 60 * hm)) now t
          else t },
       true, .held) := by
  unfold assign_hold; rw [hp]; simp [hov, hd]

/-- C10: the overlap check `_overlap_conflict` reports a conflict exactly
when both candidate endpoints parse and some active booking of the staff
with a parsable stored start overlaps it under the falsy-default duration;
hence a stored active booking with an unparsable start is silently skipped
and can never cause a conflict, and an unparsable candidate start or end
yields false rather than an error.  Second conjunct: the invalid-interval
failure of `assign_hold` arises exactly from its own parse of the candidate
start time. -/
theorem c10_overlap_check_parse_failures (s : DBState) (staff : Nat) (st en : TStr) :
    (overlap_conflict s staff st en = true ↔
      ∃ s1, parse_iso st = some s1 ∧ ∃ e1, parse_iso en = some e1 ∧
        ∃ t ∈ s.tasks, activeForB staff t = true ∧
          overlapB (effIvl t) (some (s1, e1)) = true) ∧
    (∀ task dur hm now,
      ((assign_hold s task staff st dur hm now).2.2 = HoldMsg.badTime ↔
        parse_iso st = none)) := by
  refine ⟨overlap_conflict_spec s staff st en, ?_⟩
  intro task dur hm now
  cases hp : parse_iso st with
  | none => simp [assign_hold_of_badTime s task staff st dur hm now hp, hp]
  | some s1 =>
    by_cases hov : overlap_conflict s staff st (.valid (s1 + 60 * dur)) = true
    · simp [assign_hold_of_conflict s task staff st dur hm now s1 hp hov, hp]
    · have hov' : overlap_conflict s staff st (.valid (s1 + 60 * dur)) = false := by
        simpa using hov
      by_cases hd : dupStart s task staff st = true
      · simp [assign_hold_of_dup s task staff st dur hm now s1 hp hov' hd, hp]
      · have hd' : dupStart s task staff st = false := by simpa using hd
        simp [assign_hold_of_ok s task staff st dur hm now s1 hp hov' hd', hp]

/-- C2 amended: with a parsable candidate start `s1` (the end `s1 + 60 dur`
always parses, being computed), `assign_hold` is rejected with a conflict
iff either some active booking of the staff overlaps the candidate under
the code's effective duration — a stored `duration_min` of 0 is widened to
60 minutes, so the claim's literal `[s2, s2 + duration)` intervals
characterize rejection only when durations are nonzero — or no such overlap
exists but the target row exists and a different active task of the same
staff has exactly the same stored start time, which trips the unique index
`ux_tasks_staff_start_active`.  Back-to-back intervals with positive
durations satisfy neither disjunct, so the hold succeeds. -/
theorem c2_amended_conflict_iff (s : DBState) (task staff : Nat) (st : TStr)
    (dur hm now : Int) :
    conflictMsg (assign_hold s task staff st dur hm now).2.2 = true ↔
      ∃ s1, parse_iso st = some s1 ∧
        ((∃ t ∈ s.tasks, activeForB staff t = true ∧
            overlapB (effIvl t) (some (s1, s1 + 60 * dur)) = true) ∨
         ((¬ ∃ t ∈ s.tasks, activeForB staff t = true ∧
              overlapB (effIvl t) (some (s1, s1 + 60 * dur)) = true) ∧
          (∃ u ∈ s.tasks, u.id = task) ∧
          ∃ t ∈ s.tasks, t.id ≠ task ∧ activeForB staff t = true ∧
            t.start_time = some st)) := by
  cases hp : parse_iso st with
  | none =>
    simp [assign_hold_of_badTime s task staff st dur hm now hp, conflictMsg, hp]
  | some s1 =>
    have hspec : overlap_conflict s staff st (.valid (s1 + 60 * dur)) = true ↔
        ∃ t ∈ s.tasks, activeForB staff t = true ∧
          overlapB (effIvl t) (some (s1, s1 + 60 * dur)) = true := by
      rw [overlap_conflict_spec]
      simp [hp]
    by_cases hov : overlap_conflict s staff st (.valid (s1 + 60 * dur)) = true
    · rw [assign_hold_of_conflict s task staff st dur hm now s1 hp hov]
      constructor
      · intro _; exact ⟨s1, rfl, Or.inl (hspec.mp hov)⟩
      · intro _; rfl
    · have hov' : overlap_conflict s staff st (.valid (s1 + 60 * dur)) = false := by
        simpa using hov
      by_cases hd : dupStart s task staff st = true
      · rw [assign_hold_of_dup s task staff st dur hm now s1 hp hov' hd]
        obtain ⟨hpres, t, ht, hne, hact, hstaff, hstart⟩ := (dupStart_spec s task staff st).mp hd
        constructor
        · intro _
          refine ⟨s1, rfl, Or.inr ⟨fun hex => hov (hspec.mpr hex), hpres,
            t, ht, hne, ?_, hstart⟩⟩
          simp [activeForB, hact, hstaff]
        · intro _; rfl
      · have hd' : dupStart s task staff st = false := by simpa using hd
        rw [assign_hold_of_ok s task staff st dur hm now s1 hp hov' hd']
        constructor
        · intro h; cases h
        · rintro ⟨s1x, hs1x, hcase⟩
          injection hs1x with h1
          subst h1
          rcases hcase with hex | ⟨hnex, hpres, t, ht, hne, hforb, hstart⟩
          · exact absurd (hspec.mpr hex) hov
          · exfalso
            apply hd
            rw [dupStart_spec]
            have hsplit : activeBookingStatus t.status = true ∧ t.staff_id = some staff := by
              simpa [activeForB, Bool.and_eq_true, beq_iff_eq] using hforb
            exact ⟨hpres, t, ht, hne, hsplit.1, hsplit.2, hstart⟩

lemma task_id_injOn {l : List Task} (h : (l.map Task.id).Nodup) :
    ∀ a ∈ l, ∀ b ∈ l, a.id = b.id → a = b := by
  intro a ha b hb hab
  exact List.inj_on_of_nodup_map h ha hb hab

/-- C3: assuming distinct row ids (the primary key), a sweep transitions
exactly the tasks with status HOLD and a (parsable) `hold_expires_at` at or
before now to EXPIRED — clearing staff_id, start_time and hold_expires_at
and updating updated_time — touching no other task and reporting their
number; a run with no due holds changes nothing; and an immediate second
run finds nothing, leaving the state of a single run. -/
theorem c3_cleanup_sweep (s : DBState) (now : Int)
    (h : (s.tasks.map Task.id).Nodup) :
    ((cleanup_expired_holds s now).1.tasks =
        s.tasks.map (fun t =>
          if dueHold now t then
            { t with status := Status.EXPIRED, staff_id := none, start_time := none,
                     hold_expires_at := none, updated_time := now }
          else t) ∧
     (cleanup_expired_holds s now).2 = (s.tasks.filter (dueHold now)).length) ∧
    ((∀ t ∈ s.tasks, dueHold now t = false) → cleanup_expired_holds s now = (s, 0)) ∧
    cleanup_expired_holds (cleanup_expired_holds s now).1 now =
      ((cleanup_expired_holds s now).1, 0) := by
  have hnoop : ∀ s2 : DBState, (∀ t ∈ s2.tasks, dueHold now t = false) →
      cleanup_expired_holds s2 now = (s2, 0) := by
    intro s2 hall
    have hf : s2.tasks.filter (dueHold now) = [] := by
      rw [List.filter_eq_nil_iff]
      intro a ha
      simp [hall a ha]
    simp [cleanup_expired_holds, hf]
  have hmain : (cleanup_expired_holds s now).1.tasks =
        s.tasks.map (fun t =>
          if dueHold now t then
            { t with status := Status.EXPIRED, staff_id := none, start_time := none,
                     hold_expires_at := none, updated_time := now }
          else t) ∧
      (cleanup_expired_holds s now).2 = (s.tasks.filter (dueHold now)).length := by
    by_cases hE : s.tasks.filter (dueHold now) = []
    · have hall : ∀ t ∈ s.tasks, dueHold now t = false := by
        intro t ht
        have := List.filter_eq_nil_iff.mp hE t ht
        simpa using this
      rw [hnoop s hall]
      constructor
      · have hpt : ∀ t ∈ s.tasks,
            (if dueHold now t then
              { t with status := Status.EXPIRED, staff_id := none, start_time := none,
                       hold_expires_at := none, updated_time := now }
            else t) = t := by
          intro t ht
          simp [hall t ht]
        calc s.tasks = s.tasks.map id := (List.map_id _).symm
          _ = _ := (List.map_congr_left fun t ht => (hpt t ht).symm)
      · simp [hE]
    · have hEe : ((s.tasks.filter (dueHold now)).map (·.id)).isEmpty = false := by
        simp [List.isEmpty_iff, hE]
      simp only [cleanup_expired_holds, hEe, Bool.false_eq_true, if_false,
        List.length_map]
      refine ⟨List.map_congr_left fun t ht => ?_, trivial⟩
      have hcd : (((s.tasks.filter (dueHold now)).map (·.id)).contains t.id) =
          dueHold now t := by
        by_cases hd : dueHold now t = true
        · rw [hd]
          simp only [List.contains_iff_exists_mem_beq]
          exact ⟨t.id, by simp [List.mem_map]; exact ⟨t, ⟨ht, hd⟩, rfl⟩, by simp⟩
        · have hd' : dueHold now t = false := by simpa using hd
          rw [hd']
          rw [Bool.eq_false_iff]
          intro hc
          have : t.id ∈ (s.tasks.filter (dueHold now)).map (·.id) := by
            simpa using hc
          obtain ⟨u, hu, hui⟩ := List.mem_map.mp this
          have huT := List.mem_filter.mp hu
          have : u = t := task_id_injOn h u huT.1 t ht hui
          rw [this] at huT
          rw [huT.2] at hd'
          cases hd'
      rw [hcd]
      by_cases hd : dueHold now t = true <;> simp [hd, expireTask]
  refine ⟨hmain, hnoop s, ?_⟩
  apply hnoop
  intro t' ht'
  rw [hmain.1] at ht'
  obtain ⟨t, ht, rfl⟩ := List.mem_map.mp ht'
  by_cases hd : dueHold now t = true
  · rw [if_pos hd]
    rfl
  · rw [if_neg hd]
    simpa using hd

/-- C9: `create_or_update_task` returns the conversation's active task id.
When the conversation has no active task it inserts a fresh TODO row with
null booking fields and duration at its column default, leaving all other
rows untouched; when it has exactly one active task it returns that task's
id and rewrites only title, address, contact_phone, notes and updated_time
on it; in both cases status, start_time, duration_min, staff_id and
hold_expires_at of every pre-existing row are unchanged. -/
theorem c9_create_or_update (s : DBState) (conv : Nat) (ex : Extracted) (now : Int) :
    (s.tasks.filter (convActive conv) = [] →
      create_or_update_task s conv ex now =
        (s.nextId,
         { tasks := s.tasks ++
            [{ id := s.nextId, conv_id := some conv, title := ex.title.getD "",
               address := ex.address.getD "", contact_phone := ex.contact_phone.getD "",
               notes := ex.notes.getD "", start_time := none, duration_min := 60,
               staff_id := none, status := Status.TODO, hold_expires_at := none,
               created_time := now, updated_time := now }],
           nextId := s.nextId + 1 })) ∧
    (∀ a, s.tasks.filter (convActive conv) = [a] →
      (create_or_update_task s conv ex now).1 = a.id ∧
      (create_or_update_task s conv ex now).2.tasks =
        s.tasks.map (fun u =>
          if u.id = a.id then
            { u with title := ex.title.getD "", address := ex.address.getD "",
                     contact_phone := ex.contact_phone.getD "",
                     notes := ex.notes.getD "", updated_time := now }
          else u) ∧
      (create_or_update_task s conv ex now).2.tasks.map
          (fun u => (u.status, u.start_time, u.duration_min, u.staff_id, u.hold_expires_at)) =
        s.tasks.map
          (fun u => (u.status, u.start_time, u.duration_min, u.staff_id, u.hold_expires_at))) := by
  constructor
  · intro hf
    have hm : maxActiveId s conv = none := by
      simp [maxActiveId, hf]
    simp [create_or_update_task, hm]
  · intro a hf
    have hm : maxActiveId s conv = some a.id := by
      simp [maxActiveId, hf, List.max?]
    have htasks : (create_or_update_task s conv ex now).2.tasks =
        s.tasks.map (fun u =>
          if u.id = a.id then
            { u with title := ex.title.getD "", address := ex.address.getD "",
                     contact_phone := ex.contact_phone.getD "",
                     notes := ex.notes.getD "", updated_time := now }
          else u) := by
      simp only [create_or_update_task, hm]
      refine List.map_congr_left fun u hu => ?_
      by_cases he : u.id = a.id
      · simp [he, updExtract]
      · simp [he]
    refine ⟨by simp [create_or_update_task, hm], htasks, ?_⟩
    rw [htasks, List.map_map]
    refine List.map_congr_left fun u hu => ?_
    by_cases he : u.id = a.id <;> simp [he]

lemma effIvl_overlap_of_ivl_overlap (t : Task) (c : Int × Int)
    (h : overlapB (ivl t) (some c) = true) :
    overlapB (effIvl t) (some c) = true := by
  cases h1 : t.start_time with
  | none => simp [ivl, h1, overlapB] at h
  | some ts =>
    cases h2 : parse_iso ts with
    | none => simp [ivl, h1, h2, overlapB] at h
    | some v =>
      simp only [ivl, h1, h2, Option.map_some', overlapB] at h
      simp only [effIvl, h1, h2, Option.map_some', overlapB]
      by_cases hd0 : t.duration_min = 0
      · exfalso
        have h' := of_decide_eq_true h
        rw [hd0] at h'
        simp only [mul_zero, add_zero] at h'
        have hle1 : min v c.2 ≤ v := min_le_left _ _
        have hle2 : v ≤ max v c.1 := le_max_left _ _
        linarith
      · have : effDur t.duration_min = t.duration_min := by
          simp [effDur, beq_iff_eq, hd0]
        rw [this]
        exact h

/-- C5 amended: `assign_hold` applies no precondition on the task's current
status (the counterexample shows it succeeds from a terminal status); what
holds is that whenever it reports success, every row with the target id has
been set to status HOLD with the requested staff, start time and duration
and with `hold_expires_at = now + 60 * hold_minutes`, all other rows being
left as they were. -/
theorem c5_amended_hold_sets_fields (s : DBState) (task staff : Nat) (st : TStr)
    (dur hm now : Int)
    (h : (assign_hold s task staff st dur hm now).2.1 = true) :
    (∀ t ∈ (assign_hold s task staff st dur hm now).1.tasks, t.id = task →
      t.status = Status.HOLD ∧ t.staff_id = some staff ∧ t.start_time = some st ∧
      t.duration_min = dur ∧
      t.hold_expires_at = some (TStr.valid (now + 60 * hm)) ∧ t.updated_time = now) ∧
    (∀ t ∈ (assign_hold s task staff st dur hm now).1.tasks, t.id ≠ task →
      t ∈ s.tasks) := by
  cases hp : parse_iso st with
  | none => rw [assign_hold_of_badTime s task staff st dur hm now hp] at h; cases h
  | some s1 =>
    by_cases hov : overlap_conflict s staff st (.valid (s1 + 60 * dur)) = true
    · rw [assign_hold_of_conflict s task staff st dur hm now s1 hp hov] at h; cases h
    · have hov' : overlap_conflict s staff st (.valid (s1 + 60 * dur)) = false := by
        simpa using hov
      by_cases hd : dupStart s task staff st = true
      · rw [assign_hold_of_dup s task staff st dur hm now s1 hp hov' hd] at h; cases h
      · have hd' : dupStart s task staff st = false := by simpa using hd
        rw [assign_hold_of_ok s task staff st dur hm now s1 hp hov' hd']
        constructor
        · intro t ht hid
          obtain ⟨u, hu, rfl⟩ := List.mem_map.mp ht
          by_cases he : u.id = task
          · simp [he, holdUpdate]
          · have hsame : (if (u.id == task) = true then
                holdUpdate staff st dur (.valid (now + 60 * hm)) now u else u) = u := by
              simp [he]
            rw [hsame] at hid
            exact absurd hid he
        · intro t ht hid
          obtain ⟨u, hu, rfl⟩ := List.mem_map.mp ht
          by_cases he : u.id = task
          · have : (if (u.id == task) = true then
                holdUpdate staff st dur (.valid (now + 60 * hm)) now u else u).id = task := by
              simp [he, holdUpdate]
            exact absurd this hid
          · have hsame : (if (u.id == task) = true then
                holdUpdate staff st dur (.valid (now + 60 * hm)) now u else u) = u := by
              simp [he]
            rw [hsame]
            exact hu

/-- C6 amended: there is no InvalidTransition check anywhere: `confirm_task`,
`mark_done` and `cancel_task` unconditionally rewrite the status of the row
with the given id — whatever its current status, an already-CANCELLED task
included — confirm also clearing `hold_expires_at`, each bumping only
`updated_time` and leaving every other field and row unchanged. -/
theorem c6_amended_unconditional_transitions (s : DBState) (task : Nat) (now : Int) :
    confirm_task s task now =
      { s with tasks := s.tasks.map fun t =>
          if t.id = task then
            { t with status := Status.CONFIRMED, hold_expires_at := none,
                     updated_time := now }
          else t } ∧
    mark_done s task now =
      { s with tasks := s.tasks.map fun t =>
          if t.id = task then { t with status := Status.DONE, updated_time := now }
          else t } ∧
    cancel_task s task now =
      { s with tasks := s.tasks.map fun t =>
          if t.id = task then { t with status := Status.CANCELLED, updated_time := now }
          else t } := by
  refine ⟨?_, ?_, ?_⟩ <;>
    · simp only [confirm_task, mark_done, cancel_task]
      congr 1
      refine List.map_congr_left fun t ht => ?_
      by_cases he : t.id = task <;> simp [he]

/-- C7 amended: every `assign_hold` call ends in success with the HOLD
message, or in a failure classified as a conflict or as an unparsable start
time with the state untouched; there is no NotFound outcome — when the
given task id is absent from the store the call leaves the state unchanged
even when it reports success. -/
theorem c7_amended_no_notfound (s : DBState) (task staff : Nat) (st : TStr)
    (dur hm now : Int) :
    (((assign_hold s task staff st dur hm now).2.1 = true ∧
      (assign_hold s task staff st dur hm now).2.2 = HoldMsg.held) ∨
     ((assign_hold s task staff st dur hm now).2.1 = false ∧
      conflictMsg (assign_hold s task staff st dur hm now).2.2 = true ∧
      (assign_hold s task staff st dur hm now).1 = s) ∨
     ((assign_hold s task staff st dur hm now).2.1 = false ∧
      (assign_hold s task staff st dur hm now).2.2 = HoldMsg.badTime ∧
      parse_iso st = none ∧
      (assign_hold s task staff st dur hm now).1 = s)) ∧
    ((∀ u ∈ s.tasks, u.id ≠ task) →
      (assign_hold s task staff st dur hm now).1 = s) := by
  cases hp : parse_iso st with
  | none =>
    rw [assign_hold_of_badTime s task staff st dur hm now hp]
    exact ⟨Or.inr (Or.inr ⟨rfl, rfl, rfl, rfl⟩), fun _ => rfl⟩
  | some s1 =>
    by_cases hov : overlap_conflict s staff st (.valid (s1 + 60 * dur)) = true
    · rw [assign_hold_of_conflict s task staff st dur hm now s1 hp hov]
      exact ⟨Or.inr (Or.inl ⟨rfl, rfl, rfl⟩), fun _ => rfl⟩
    · have hov' : overlap_conflict s staff st (.valid (s1 + 60 * dur)) = false := by
        simpa using hov
      by_cases hd : dupStart s task staff st = true
      · rw [assign_hold_of_dup s task staff st dur hm now s1 hp hov' hd]
        exact ⟨Or.inr (Or.inl ⟨rfl, rfl, rfl⟩), fun _ => rfl⟩
      · have hd' : dupStart s task staff st = false := by simpa using hd
        rw [assign_hold_of_ok s task staff st dur hm now s1 hp hov' hd']
        refine ⟨Or.inl ⟨rfl, rfl⟩, fun habs => ?_⟩
        have hmap : (s.tasks.map fun t =>
            if (t.id == task) = true then
              holdUpdate staff st dur (.valid (now + 60 * hm)) now t
            else t) = s.tasks := by
          have := List.map_congr_left (l := s.tasks)
            (f := fun t =>
              if (t.id == task) = true then
                holdUpdate staff st dur (.valid (now + 60 * hm)) now t
              else t)
            (g := id) (fun t ht => by simp [habs t ht])
          simpa using this
        simp only [hmap]

/-- C8: when the hold-assignment write would break the per-staff interval
invariant — the target row exists and a different active booking of the
staff either genuinely overlaps the candidate interval or carries exactly
the same stored start time (the unique-index case) — `assign_hold` fails
with one of its two conflict errors and the state is exactly what it was
before the call. -/
theorem c8_conflict_atomicity (s : DBState) (task staff : Nat) (st : TStr)
    (dur hm now : Int) (s1 : Int) (hp : parse_iso st = some s1)
    (hpresent : ∃ u ∈ s.tasks, u.id = task)
    (hviol : ∃ t ∈ s.tasks, t.id ≠ task ∧ activeForB staff t = true ∧
        (overlapB (ivl t) (some (s1, s1 + 60 * dur)) = true ∨ t.start_time = some st)) :
    (assign_hold s task staff st dur hm now).2.1 = false ∧
    conflictMsg (assign_hold s task staff st dur hm now).2.2 = true ∧
    (assign_hold s task staff st dur hm now).1 = s := by
  by_cases hov : overlap_conflict s staff st (.valid (s1 + 60 * dur)) = true
  · rw [assign_hold_of_conflict s task staff st dur hm now s1 hp hov]
    exact ⟨rfl, rfl, rfl⟩
  · have hov' : overlap_conflict s staff st (.valid (s1 + 60 * dur)) = false := by
      simpa using hov
    have hd : dupStart s task staff st = true := by
      rw [dupStart_spec]
      obtain ⟨t, ht, hne, hforb, hcase⟩ := hviol
      have hsplit : activeBookingStatus t.status = true ∧ t.staff_id = some staff := by
        simpa [activeForB, Bool.and_eq_true, beq_iff_eq] using hforb
      rcases hcase with hovl | hstart
      · exfalso
        apply hov
        rw [overlap_conflict_spec]
        exact ⟨s1, hp, s1 + 60 * dur, rfl, t, ht, hforb,
          effIvl_overlap_of_ivl_overlap t _ hovl⟩
      · exact ⟨hpresent, t, ht, hne, hsplit.1, hsplit.2, hstart⟩
    rw [assign_hold_of_dup s task staff st dur hm now s1 hp hov' hd]
    exact ⟨rfl, rfl, rfl⟩

/-- C4 amended: the hold_expires_at-iff-HOLD invariant is preserved by
`create_or_update_task`, `assign_hold`, `confirm_task` and
`cleanup_expired_holds`; `mark_done` and `cancel_task` preserve it only when
the targeted row is not in HOLD, because neither clears `hold_expires_at`
(the counterexample applies `mark_done` to a HOLD task and breaks it). -/
theorem c4_amended_hold_expiry_invariant (s : DBState) (h : holdInv s) :
    (∀ conv ex now, holdInv (create_or_update_task s conv ex now).2) ∧
    (∀ task staff st dur hm now, holdInv (assign_hold s task staff st dur hm now).1) ∧
    (∀ task now, holdInv (confirm_task s task now)) ∧
    (∀ now, holdInv (cleanup_expired_holds s now).1) ∧
    (∀ task now, (∀ t ∈ s.tasks, t.id = task → t.status ≠ Status.HOLD) →
      holdInv (mark_done s task now)) ∧
    (∀ task now, (∀ t ∈ s.tasks, t.id = task → t.status ≠ Status.HOLD) →
      holdInv (cancel_task s task now)) := by
  refine ⟨?_, ?_, ?_, ?_, ?_, ?_⟩
  · intro conv ex now t' ht'
    rcases hm : maxActiveId s conv with _ | tid
    · simp only [create_or_update_task, hm] at ht'
      rcases List.mem_append.mp ht' with hl | hr
      · exact h t' hl
      · rw [List.mem_singleton.mp hr]
        simp
    · simp only [create_or_update_task, hm] at ht'
      obtain ⟨u, hu, rfl⟩ := List.mem_map.mp ht'
      by_cases he : u.id = tid
      · simpa [he, updExtract] using h u hu
      · simpa [he] using h u hu
  · intro task staff st dur hm now
    cases hp : parse_iso st with
    | none =>
      rw [assign_hold_of_badTime s task staff st dur hm now hp]; exact h
    | some s1 =>
      by_cases hov : overlap_conflict s staff st (.valid (s1 + 60 * dur)) = true
      · rw [assign_hold_of_conflict s task staff st dur hm now s1 hp hov]; exact h
      · have hov' : overlap_conflict s staff st (.valid (s1 + 60 * dur)) = false := by
          simpa using hov
        by_cases hd : dupStart s task staff st = true
        · rw [assign_hold_of_dup s task staff st dur hm now s1 hp hov' hd]; exact h
        · have hd' : dupStart s task staff st = false := by simpa using hd
          rw [assign_hold_of_ok s task staff st dur hm now s1 hp hov' hd']
          intro t' ht'
          obtain ⟨u, hu, rfl⟩ := List.mem_map.mp ht'
          by_cases he : u.id = task
          · simp [he, holdUpdate]
          · simpa [he] using h u hu
  · intro task now t' ht'
    obtain ⟨u, hu, rfl⟩ := List.mem_map.mp ht'
    by_cases he : u.id = task
    · simp [he]
    · simpa [he] using h u hu
  · intro now
    by_cases hE : ((s.tasks.filter (dueHold now)).map (·.id)).isEmpty = true
    · have hstate : cleanup_expired_holds s now = (s, 0) := by
        simp [cleanup_expired_holds, hE]
      rw [hstate]; exact h
    · have hE' : ((s.tasks.filter (dueHold now)).map (·.id)).isEmpty = false := by
        simpa using hE
      intro t' ht'
      simp only [cleanup_expired_holds, hE', Bool.false_eq_true, if_false] at ht'
      obtain ⟨u, hu, rfl⟩ := List.mem_map.mp ht'
      by_cases hc : ((s.tasks.filter (dueHold now)).map (·.id)).contains u.id = true
      · rw [if_pos hc]
        simp [expireTask]
      · rw [if_neg hc]
        exact h u hu
  · intro task now hg t' ht'
    obtain ⟨u, hu, rfl⟩ := List.mem_map.mp ht'
    by_cases he : u.id = task
    · have h1 := h u hu
      have h2 := hg u hu he
      simp only [he, beq_self_eq_true, if_true]
      constructor
      · intro his
        exact absurd (h1.mp his) h2
      · intro hst
        cases hst
    · simpa [he] using h u hu
  · intro task now hg t' ht'
    obtain ⟨u, hu, rfl⟩ := List.mem_map.mp ht'
    by_cases he : u.id = task
    · have h1 := h u hu
      have h2 := hg u hu he
      simp only [he, beq_self_eq_true, if_true]
      constructor
      · intro his
        exact absurd (h1.mp his) h2
      · intro hst
        cases hst
    · simpa [he] using h u hu

@[simp] lemma overlapB_none_left (x : Option (Int × Int)) : overlapB none x = false := by
  cases x <;> rfl

@[simp] lemma overlapB_none_right (x : Option (Int × Int)) : overlapB x none = false := by
  cases x <;> rfl

lemma overlapB_comm (a b : Option (Int × Int)) : overlapB a b = overlapB b a := by
  rcases a with _ | x
  · simp
  · rcases b with _ | y
    · simp
    · simp only [overlapB]
      apply decide_eq_decide.mpr
      rw [max_comm, min_comm]

lemma staffInv_map (s : DBState) (sid : Nat) (f : Task → Task)
    (h : ∀ t1 ∈ s.tasks, ∀ t2 ∈ s.tasks, (f t1).id ≠ (f t2).id →
         activeForB sid (f t1) = true → activeForB sid (f t2) = true →
         overlapB (ivl (f t1)) (ivl (f t2)) = false) :
    staffInv { s with tasks := s.tasks.map f } sid := by
  intro t1' h1 t2' h2 hne ha1 ha2
  obtain ⟨t1, ht1, rfl⟩ := List.mem_map.mp h1
  obtain ⟨t2, ht2, rfl⟩ := List.mem_map.mp h2
  exact h t1 ht1 t2 ht2 hne ha1 ha2

lemma staffInv_map_pres (s : DBState) (sid : Nat) (f : Task → Task)
    (h : staffInv s sid)
    (hid : ∀ t ∈ s.tasks, (f t).id = t.id)
    (hsafe : ∀ t ∈ s.tasks, activeForB sid (f t) = true →
      (activeForB sid t = true ∧ ivl (f t) = ivl t) ∨ ivl (f t) = none) :
    staffInv { s with tasks := s.tasks.map f } sid := by
  apply staffInv_map
  intro t1 ht1 t2 ht2 hne ha1 ha2
  rcases hsafe t1 ht1 ha1 with ⟨hb1, hv1⟩ | hv1
  · rcases hsafe t2 ht2 ha2 with ⟨hb2, hv2⟩ | hv2
    · rw [hv1, hv2]
      refine h t1 ht1 t2 ht2 ?_ hb1 hb2
      rw [hid t1 ht1, hid t2 ht2] at hne
      exact hne
    · rw [hv2]
      simp
  · rw [hv1]
    simp

lemma no_overlap_of_check (s : DBState) (staff : Nat) (st : TStr) (s1 dur : Int)
    (hp : parse_iso st = some s1)
    (hov : overlap_conflict s staff st (.valid (s1 + 60 * dur)) = false)
    (t2 : Task) (ht2 : t2 ∈ s.tasks) (ha2 : activeForB staff t2 = true) :
    overlapB (some (s1, s1 + 60 * dur)) (ivl t2) = false := by
  by_contra hcon
  have hcon' : overlapB (some (s1, s1 + 60 * dur)) (ivl t2) = true := by
    simpa using hcon
  have h2 : overlapB (ivl t2) (some (s1, s1 + 60 * dur)) = true := by
    rw [overlapB_comm]; exact hcon'
  have h3 := effIvl_overlap_of_ivl_overlap t2 _ h2
  have hct : overlap_conflict s staff st (.valid (s1 + 60 * dur)) = true := by
    rw [overlap_conflict_spec]
    exact ⟨s1, hp, s1 + 60 * dur, rfl, t2, ht2, ha2, h3⟩
  rw [hct] at hov
  cases hov

/-- C1 amended: the per-staff pairwise non-overlap of active booking
intervals is preserved by `create_or_update_task`, `assign_hold`,
`mark_done`, `cancel_task` and `cleanup_expired_holds`; `confirm_task`
preserves it only when the targeted rows are already active bookings or
carry no staff or no start time — confirming a stale DONE/CANCELLED row
that still holds a booking can re-activate it over a later booking, which
is what the counterexample exhibits. -/
theorem c1_amended_staff_nonoverlap (s : DBState) (sid : Nat) (h : staffInv s sid) :
    (∀ conv ex now, staffInv (create_or_update_task s conv ex now).2 sid) ∧
    (∀ task staff st dur hm now, staffInv (assign_hold s task staff st dur hm now).1 sid) ∧
    (∀ task now, staffInv (mark_done s task now) sid) ∧
    (∀ task now, staffInv (cancel_task s task now) sid) ∧
    (∀ now, staffInv (cleanup_expired_holds s now).1 sid) ∧
    (∀ task now,
      (∀ t ∈ s.tasks, t.id = task →
        (activeBookingStatus t.status = true ∨ t.staff_id = none ∨ t.start_time = none)) →
      staffInv (confirm_task s task now) sid) := by
  refine ⟨?_, ?_, ?_, ?_, ?_, ?_⟩
  · intro conv ex now
    rcases hm : maxActiveId s conv with _ | tid
    · simp only [create_or_update_task, hm]
      intro t1 h1 t2 h2 hne ha1 ha2
      rcases List.mem_append.mp h1 with h1l | h1r
      · rcases List.mem_append.mp h2 with h2l | h2r
        · exact h t1 h1l t2 h2l hne ha1 ha2
        · rw [List.mem_singleton.mp h2r] at ha2
          simp [activeForB, activeBookingStatus] at ha2
      · rw [List.mem_singleton.mp h1r] at ha1
        simp [activeForB, activeBookingStatus] at ha1
    · simp only [create_or_update_task, hm]
      apply staffInv_map_pres s sid _ h
      · intro t ht
        by_cases he : t.id = tid <;> simp [he, updExtract]
      · intro t ht ha
        by_cases he : t.id = tid
        · have e : (if (t.id == tid) = true then updExtract ex now t else t) =
              updExtract ex now t := by simp [he]
          rw [e] at ha ⊢
          exact Or.inl ⟨ha, rfl⟩
        · have e : (if (t.id == tid) = true then updExtract ex now t else t) = t := by
            simp [he]
          rw [e] at ha ⊢
          exact Or.inl ⟨ha, rfl⟩
  · intro task staff st dur hm now
    cases hp : parse_iso st with
    | none =>
      rw [assign_hold_of_badTime s task staff st dur hm now hp]; exact h
    | some s1 =>
      by_cases hov : overlap_conflict s staff st (.valid (s1 + 60 * dur)) = true
      · rw [assign_hold_of_conflict s task staff st dur hm now s1 hp hov]; exact h
      · have hov' : overlap_conflict s staff st (.valid (s1 + 60 * dur)) = false := by
          simpa using hov
        by_cases hd : dupStart s task staff st = true
        · rw [assign_hold_of_dup s task staff st dur hm now s1 hp hov' hd]; exact h
        · have hd' : dupStart s task staff st = false := by simpa using hd
          rw [assign_hold_of_ok s task staff st dur hm now s1 hp hov' hd']
          apply staffInv_map
          intro t1 ht1 t2 ht2 hne ha1 ha2
          by_cases b1 : t1.id = task <;> by_cases b2 : t2.id = task
          · exfalso
            apply hne
            simp [b1, b2, holdUpdate]
          · have e1 : (if (t1.id == task) = true then
                holdUpdate staff st dur (.valid (now + 60 * hm)) now t1 else t1) =
                holdUpdate staff st dur (.valid (now + 60 * hm)) now t1 := by simp [b1]
            have e2 : (if (t2.id == task) = true then
                holdUpdate staff st dur (.valid (now + 60 * hm)) now t2 else t2) = t2 := by
              simp [b2]
            rw [e1] at ha1 ⊢
            rw [e2] at ha2 ⊢
            have hstaff : staff = sid := by
              simpa [activeForB, holdUpdate, activeBookingStatus, beq_iff_eq] using ha1
            have hivl : ivl (holdUpdate staff st dur (.valid (now + 60 * hm)) now t1) =
                some (s1, s1 + 60 * dur) := by
              simp [ivl, holdUpdate, hp]
            rw [hivl]
            subst hstaff
            exact no_overlap_of_check s staff st s1 dur hp hov' t2 ht2 ha2
          · have e1 : (if (t1.id == task) = true then
                holdUpdate staff st dur (.valid (now + 60 * hm)) now t1 else t1) = t1 := by
              simp [b1]
            have e2 : (if (t2.id == task) = true then
                holdUpdate staff st dur (.valid (now + 60 * hm)) now t2 else t2) =
                holdUpdate staff st dur (.valid (now + 60 * hm)) now t2 := by simp [b2]
            rw [e1] at ha1 ⊢
            rw [e2] at ha2 ⊢
            have hstaff : staff = sid := by
              simpa [activeForB, holdUpdate, activeBookingStatus, beq_iff_eq] using ha2
            have hivl : ivl (holdUpdate staff st dur (.valid (now + 60 * hm)) now t2) =
                some (s1, s1 + 60 * dur) := by
              simp [ivl, holdUpdate, hp]
            rw [hivl, overlapB_comm]
            subst hstaff
            exact no_overlap_of_check s staff st s1 dur hp hov' t1 ht1 ha1
          · have e1 : (if (t1.id == task) = true then
                holdUpdate staff st dur (.valid (now + 60 * hm)) now t1 else t1) = t1 := by
              simp [b1]
            have e2 : (if (t2.id == task) = true then
                holdUpdate staff st dur (.valid (now + 60 * hm)) now t2 else t2) = t2 := by
              simp [b2]
            rw [e1] at ha1 hne ⊢
            rw [e2] at ha2 hne ⊢
            exact h t1 ht1 t2 ht2 hne ha1 ha2
  · intro task now
    apply staffInv_map_pres s sid _ h
    · intro t ht
      by_cases he : t.id = task <;> simp [he]
    · intro t ht ha
      by_cases he : t.id = task
      · have e : (if (t.id == task) = true then
            { t with status := Status.DONE, updated_time := now } else t) =
            { t with status := Status.DONE, updated_time := now } := by simp [he]
        rw [e] at ha
        simp [activeForB, activeBookingStatus] at ha
      · have e : (if (t.id == task) = true then
            { t with status := Status.DONE, updated_time := now } else t) = t := by
          simp [he]
        rw [e] at ha ⊢
        exact Or.inl ⟨ha, rfl⟩
  · intro task now
    apply staffInv_map_pres s sid _ h
    · intro t ht
      by_cases he : t.id = task <;> simp [he]
    · intro t ht ha
      by_cases he : t.id = task
      · have e : (if (t.id == task) = true then
            { t with status := Status.CANCELLED, updated_time := now } else t) =
            { t with status := Status.CANCELLED, updated_time := now } := by simp [he]
        rw [e] at ha
        simp [activeForB, activeBookingStatus] at ha
      · have e : (if (t.id == task) = true then
            { t with status := Status.CANCELLED, updated_time := now } else t) = t := by
          simp [he]
        rw [e] at ha ⊢
        exact Or.inl ⟨ha, rfl⟩
  · intro now
    by_cases hE : ((s.tasks.filter (dueHold now)).map (·.id)).isEmpty = true
    · have hstate : cleanup_expired_holds s now = (s, 0) := by
        simp [cleanup_expired_holds, hE]
      rw [hstate]; exact h
    · have hE' : ((s.tasks.filter (dueHold now)).map (·.id)).isEmpty = false := by
        simpa using hE
      have hstate : (cleanup_expired_holds s now).1 =
          { s with tasks := s.tasks.map fun t =>
              if ((s.tasks.filter (dueHold now)).map (·.id)).contains t.id then
                expireTask now t
              else t } := by
        simp [cleanup_expired_holds, hE']
      rw [hstate]
      apply staffInv_map_pres s sid _ h
      · intro t ht
        by_cases hc : ((s.tasks.filter (dueHold now)).map (·.id)).contains t.id = true
        · rw [if_pos hc]; rfl
        · rw [if_neg hc]
      · intro t ht ha
        by_cases hc : ((s.tasks.filter (dueHold now)).map (·.id)).contains t.id = true
        · rw [if_pos hc] at ha
          simp [expireTask, activeForB, activeBookingStatus] at ha
        · rw [if_neg hc] at ha ⊢
          exact Or.inl ⟨ha, rfl⟩
  · intro task now hg
    apply staffInv_map_pres s sid _ h
    · intro t ht
      by_cases he : t.id = task <;> simp [he]
    · intro t ht ha
      by_cases he : t.id = task
      · have e : (if (t.id == task) = true then
            { t with status := Status.CONFIRMED, hold_expires_at := none,
                     updated_time := now } else t) =
            { t with status := Status.CONFIRMED, hold_expires_at := none,
                     updated_time := now } := by simp [he]
        rw [e] at ha ⊢
        have hst : t.staff_id = some sid := by
          simpa [activeForB, activeBookingStatus, beq_iff_eq] using ha
        rcases hg t ht he with hac | hnone | hstart
        · left
          constructor
          · simp [activeForB, hac, hst]
          · rfl
        · rw [hnone] at hst
          cases hst
        · right
          simp [ivl, hstart]
      · have e : (if (t.id == task) = true then
            { t with status := Status.CONFIRMED, hold_expires_at := none,
                     updated_time := now } else t) = t := by simp [he]
        rw [e] at ha ⊢
        exact Or.inl ⟨ha, rfl⟩

/-!  Concrete states used by counterexamples and witnesses. -/

/-- A default task row: fresh TODO task with the column defaults. -/
def baseTask : Task :=
  { id := 1, conv_id := none, title := "", address := "", contact_phone := "",
    notes := "", start_time := none, duration_min := 60, staff_id := none,
    status := .TODO, hold_expires_at := none, created_time := 0, updated_time := 0 }

/-- State for the C1 counterexample: a CANCELLED task that still carries
staff 1 and interval [0, 3600), next to a live HOLD of the same staff at
[1800, 5400). -/
def c1S : DBState :=
  ⟨[{ baseTask with
      id := 1, conv_id := some 1, start_time := some (.valid 0),
      duration_min := 60, staff_id := some 1, status := .CANCELLED },
    { baseTask with
      id := 2, conv_id := some 2, start_time := some (.valid 1800),
      duration_min := 60, staff_id := some 1, status := .HOLD,
      hold_expires_at := some (.valid 1000000) }], 3⟩

/-- C1 is violated by the code: from a state satisfying the per-staff
non-overlap invariant, a single `confirm_task` on the stale CANCELLED task
re-activates its old booking and produces two overlapping active bookings
for staff 1. -/
theorem c1_counterexample :
    staffInv c1S 1 ∧ ¬ staffInv (confirm_task c1S 1 5) 1 := by decide

/-- State for the C2 counterexample: staff 7 holds a booking stored with
`duration_min = 0` starting at 0; task 2 is unassigned. -/
def c2S : DBState :=
  ⟨[{ baseTask with
      id := 1, staff_id := some 7, status := .HOLD,
      start_time := some (.valid 0), duration_min := 0,
      hold_expires_at := some (.valid 1000000) },
    { baseTask with id := 2 }], 3⟩

/-- C2 is violated by the code: the candidate [600, 2400) for staff 7 is
rejected with the overlap conflict, yet no active booking's half-open
interval `[s2, s2 + duration)` overlaps it (the stored duration is 0, which
the code's falsy-default check silently widens to 60 minutes). -/
theorem c2_counterexample :
    (assign_hold c2S 2 7 (.valid 600) 30 10 0).2.2 = HoldMsg.conflictOverlap ∧
    ¬ ∃ t ∈ c2S.tasks, activeForB 7 t = true ∧
        overlapB (ivl t) (some (600, 600 + 60 * 30)) = true := by decide

/-- State for the C4 counterexample: a single held task. -/
def c4S : DBState :=
  ⟨[{ baseTask with status := .HOLD, hold_expires_at := some (.valid 50) }], 2⟩

/-- C4 is violated by the code: `mark_done` on a HOLD task leaves
`hold_expires_at` set while the status becomes DONE, breaking the
hold_expires_at-iff-HOLD invariant. -/
theorem c4_counterexample :
    holdInv c4S ∧ ¬ holdInv (mark_done c4S 1 99) := by decide

/-- State for the C5 counterexample: one task in the terminal status DONE. -/
def c5S : DBState := ⟨[{ baseTask with status := .DONE }], 2⟩

/-- C5 is violated by the code: `assign_hold` has no status precondition, so
it succeeds on a task whose status is the terminal DONE and moves it to
HOLD. -/
theorem c5_counterexample :
    (∀ t ∈ c5S.tasks, t.status = Status.DONE) ∧
    (assign_hold c5S 1 3 (.valid 0) 60 10 100).2.1 = true ∧
    ∀ t ∈ (assign_hold c5S 1 3 (.valid 0) 60 10 100).1.tasks,
      t.status = Status.HOLD := by decide

/-- State for the C6 counterexample: one already-CANCELLED task. -/
def c6S : DBState := ⟨[{ baseTask with status := .CANCELLED }], 2⟩

/-- State for the second half of the C6 counterexample: a DONE task. -/
def c6S2 : DBState := ⟨[{ baseTask with status := .DONE }], 2⟩

/-- C6 is violated by the code: cancelling an already-CANCELLED task is a
silent success that even rewrites `updated_time` (there is no
InvalidTransition failure channel at all), and `confirm_task` applies its
transition from DONE just as readily. -/
theorem c6_counterexample :
    cancel_task c6S 1 7 =
      ⟨[{ baseTask with status := .CANCELLED, updated_time := 7 }], 2⟩ ∧
    confirm_task c6S2 1 7 =
      ⟨[{ baseTask with status := .CONFIRMED, updated_time := 7 }], 2⟩ := by decide

/-- State for the C7 counterexample: the store holds only task id 1. -/
def c7S : DBState := ⟨[baseTask], 2⟩

/-- C7 is violated by the code: `assign_hold` on the absent task id 5
reports success (ok, HOLD message) while no row is touched; there is no
NotFound outcome. -/
theorem c7_counterexample :
    (assign_hold c7S 5 3 (.valid 0) 60 10 0).2.1 = true ∧
    (assign_hold c7S 5 3 (.valid 0) 60 10 0).2.2 = HoldMsg.held ∧
    (assign_hold c7S 5 3 (.valid 0) 60 10 0).1 = c7S := by decide

/-!  Witnesses: concrete instantiations discharging the hypotheses of the
theorems above. -/

/-- State for the C1 witness: one live HOLD booking of staff 1. -/
def c1W : DBState :=
  ⟨[{ baseTask with
      id := 1, staff_id := some 1, status := .HOLD,
      start_time := some (.valid 0), hold_expires_at := some (.valid 99) }], 2⟩

/-- Witness instantiating the C1 preservation theorem on a concrete state. -/
theorem c1_amended_witness :
    staffInv (confirm_task c1W 1 5) 1 ∧
    staffInv (assign_hold c1W 1 1 (TStr.valid 7200) 60 10 0).1 1 :=
  ⟨(c1_amended_staff_nonoverlap c1W 1 (by decide)).2.2.2.2.2 1 5 (by decide),
   (c1_amended_staff_nonoverlap c1W 1 (by decide)).2.1 1 1 (TStr.valid 7200) 60 10 0⟩

/-- State for the C3 witness: a due hold (task 1) and a not-yet-due hold
(task 2) at time 100. -/
def c3W : DBState :=
  ⟨[{ baseTask with
      id := 1, status := .HOLD, staff_id := some 2,
      start_time := some (.valid 0), hold_expires_at := some (.valid 10) },
    { baseTask with
      id := 2, status := .HOLD, hold_expires_at := some (.valid 500) }], 3⟩

/-- Witness instantiating the C3 sweep theorem on a concrete state. -/
theorem c3_witness :
    (cleanup_expired_holds c3W 100).1.tasks =
      c3W.tasks.map (fun t =>
        if dueHold 100 t then
          { t with status := Status.EXPIRED, staff_id := none, start_time := none,
                   hold_expires_at := none, updated_time := 100 }
        else t) ∧
    cleanup_expired_holds (cleanup_expired_holds c3W 100).1 100 =
      ((cleanup_expired_holds c3W 100).1, 0) :=
  ⟨(c3_cleanup_sweep c3W 100 (by decide)).1.1,
   (c3_cleanup_sweep c3W 100 (by decide)).2.2⟩

/-- State for the C4 witness: a single held task. -/
def c4W : DBState :=
  ⟨[{ baseTask with id := 1, status := .HOLD, hold_expires_at := some (.valid 10) }], 2⟩

/-- Witness instantiating the C4 preservation theorem on a concrete state. -/
theorem c4_amended_witness :
    holdInv (confirm_task c4W 1 5) ∧ holdInv (mark_done c4W 2 5) :=
  ⟨(c4_amended_hold_expiry_invariant c4W (by decide)).2.2.1 1 5,
   (c4_amended_hold_expiry_invariant c4W (by decide)).2.2.2.2.1 2 5 (by decide)⟩

/-- State for the C5 witness: a fresh TODO task. -/
def c5W : DBState := ⟨[baseTask], 2⟩

/-- The row produced by the witness hold: staff 3, start 0, duration 60,
expiry 100 + 60 * 10 = 700. -/
def c5WT : Task :=
  { baseTask with
    staff_id := some 3, start_time := some (TStr.valid 0), duration_min := 60,
    status := Status.HOLD, hold_expires_at := some (TStr.valid 700),
    updated_time := 100 }

/-- Witness instantiating the C5 success theorem on a concrete state. -/
theorem c5_amended_witness :
    c5WT.status = Status.HOLD ∧ c5WT.staff_id = some 3 ∧
    c5WT.start_time = some (TStr.valid 0) ∧ c5WT.duration_min = 60 ∧
    c5WT.hold_expires_at = some (TStr.valid (100 + 60 * 10)) ∧
    c5WT.updated_time = 100 :=
  (c5_amended_hold_sets_fields c5W 1 3 (TStr.valid 0) 60 10 100 (by decide)).1
    c5WT (by decide) (by decide)

/-- State for the C7 witness: the store holds only task id 1. -/
def c7W : DBState := ⟨[baseTask], 2⟩

/-- Witness instantiating the C7 theorem: a hold on the absent id 9 leaves
the state unchanged. -/
theorem c7_amended_witness :
    (assign_hold c7W 9 3 (TStr.valid 0) 60 10 0).1 = c7W :=
  (c7_amended_no_notfound c7W 9 3 (TStr.valid 0) 60 10 0).2 (by decide)

/-- State for the C8 witness: staff 4 has a CONFIRMED booking [0, 3600) and
task 2 is free. -/
def c8W : DBState :=
  ⟨[{ baseTask with
      id := 1, staff_id := some 4, status := .CONFIRMED,
      start_time := some (.valid 0), duration_min := 60 },
    { baseTask with id := 2 }], 3⟩

/-- Witness instantiating the C8 atomicity theorem: holding task 2 for
staff 4 at 1800 (overlapping [0, 3600)) fails with a conflict and changes
nothing. -/
theorem c8_witness :
    (assign_hold c8W 2 4 (TStr.valid 1800) 60 10 0).2.1 = false ∧
    conflictMsg (assign_hold c8W 2 4 (TStr.valid 1800) 60 10 0).2.2 = true ∧
    (assign_hold c8W 2 4 (TStr.valid 1800) 60 10 0).1 = c8W :=
  c8_conflict_atomicity c8W 2 4 (TStr.valid 1800) 60 10 0 1800 (by decide)
    (by decide) (by decide)

/-- State for the C9 witness, creation path: no tasks at all. -/
def c9W : DBState := ⟨[], 1⟩

/-- The active task of the C9 update-path witness state. -/
def c9W2T : Task := { baseTask with id := 1, conv_id := some 1 }

/-- State for the C9 witness, update path: one active TODO task of
conversation 1. -/
def c9W2 : DBState := ⟨[c9W2T], 2⟩

/-- Extraction payload used by the C9 witness. -/
def c9ex : Extracted := ⟨some "t", some "a", some "p", some "n"⟩

/-- Witness instantiating the C9 theorem on both paths. -/
theorem c9_witness :
    create_or_update_task c9W 1 c9ex 5 =
      (c9W.nextId,
       { tasks := c9W.tasks ++
          [{ id := c9W.nextId, conv_id := some 1, title := c9ex.title.getD "",
             address := c9ex.address.getD "",
             contact_phone := c9ex.contact_phone.getD "",
             notes := c9ex.notes.getD "", start_time := none, duration_min := 60,
             staff_id := none, status := Status.TODO, hold_expires_at := none,
             created_time := 5, updated_time := 5 }],
         nextId := c9W.nextId + 1 }) ∧
    (create_or_update_task c9W2 1 c9ex 5).1 = c9W2T.id :=
  ⟨(c9_create_or_update c9W 1 c9ex 5).1 (by decide),
   ((c9_create_or_update c9W2 1 c9ex 5).2 c9W2T (by decide)).1⟩

end AIReception
